import Mathlib

/-!
# User service (`server/main.go`)

A shallow embedding of the five route handlers of `server/main.go` and the
properties of the in-memory user collection they read and write.

Modelling choices.

* The package-level slice `users` is the state; every handler is a function
  from the state before the request to the response written with `c.JSON`
  and the state after the request.
* Go strings are compared with `==` (byte-wise equality); they are embedded
  as `String` with structural equality.
* `c.ShouldBindJSON` belongs to the gin library.  Its outcome is an input of
  the handler: either the text of the error (`err.Error()`) or the decoded
  `User`.
* `c.JSON(code, obj)` is embedded as the pair of the status code and a value
  of `Body` telling which object was serialised.
-/

namespace UserService

/-- The `User` struct. -/
structure User where
  ID : String
  Name : String
  Email : String
  deriving DecidableEq, Repr

/-- The object handed to `c.JSON`: the slice `users`, a single `User`,
`gin.H{"message": s}` or `gin.H{"error": s}`. -/
inductive Body where
  | users (us : List User)
  | user (u : User)
  | message (s : String)
  | error (s : String)
  deriving DecidableEq, Repr

/-- What `c.JSON(status, body)` writes. -/
structure Response where
  status : Nat
  body : Body
  deriving DecidableEq, Repr

/-- `http.StatusOK`. -/
def StatusOK : Nat := 200
/-- `http.StatusCreated`. -/
def StatusCreated : Nat := 201
/-- `http.StatusBadRequest`. -/
def StatusBadRequest : Nat := 400
/-- `http.StatusNotFound`. -/
def StatusNotFound : Nat := 404

/-- The initial value of the package-level variable `users`. -/
def seedUsers : List User :=
  [ { ID := "1", Name := "John Doe", Email := "john@example.com" },
    { ID := "2", Name := "Jane Doe", Email := "jane@example.com" } ]

/-- The loop `for i, user := range users { if user.ID == id { ... return } }`
shared by the by-id handlers: the index and the record at which the loop body
fires, or `none` when the loop runs to the end.  `i` is the index of the head
of the remaining slice. -/
def scanFrom (id : String) : List User → Nat → Option (Nat × User)
  | [], _ => none
  | user :: rest, i => if user.ID = id then some (i, user) else scanFrom id rest (i + 1)

/-- Handler of `GET /users`. -/
def listUsers (users : List User) : Response × List User :=
  (⟨StatusOK, Body.users users⟩, users)

/-- Handler of `GET /users/:id`. -/
def getUser (id : String) (users : List User) : Response × List User :=
  match scanFrom id users 0 with
  | some (_, user) => (⟨StatusOK, Body.user user⟩, users)
  | none => (⟨StatusNotFound, Body.message "User not found"⟩, users)

/-- Handler of `POST /users`; `bound` is the outcome of `c.ShouldBindJSON(&newUser)`. -/
def createUser (bound : Except String User) (users : List User) : Response × List User :=
  match bound with
  | Except.error err => (⟨StatusBadRequest, Body.error err⟩, users)
  | Except.ok newUser => (⟨StatusCreated, Body.user newUser⟩, users ++ [newUser])

/-- Handler of `PUT /users/:id`; `bound` is the outcome of
`c.ShouldBindJSON(&updatedUser)`. -/
def updateUser (id : String) (bound : Except String User) (users : List User) :
    Response × List User :=
  match bound with
  | Except.error err => (⟨StatusBadRequest, Body.error err⟩, users)
  | Except.ok updatedUser =>
    match scanFrom id users 0 with
    | some (i, _) => (⟨StatusOK, Body.user updatedUser⟩, users.set i updatedUser)
    | none => (⟨StatusNotFound, Body.message "User not found"⟩, users)

/-- Handler of `DELETE /users/:id`; the new slice is
`append(users[:i], users[i+1:]...)`. -/
def deleteUser (id : String) (users : List User) : Response × List User :=
  match scanFrom id users 0 with
  | some (i, _) =>
    (⟨StatusOK, Body.message "User deleted"⟩, users.take i ++ users.drop (i + 1))
  | none => (⟨StatusNotFound, Body.message "User not found"⟩, users)

/-- A request to one of the five routes registered in `main`. -/
inductive Request where
  | list
  | get (id : String)
  | create (bound : Except String User)
  | update (id : String) (bound : Except String User)
  | delete (id : String)

/-- The router: each request runs the handler registered for its route. -/
def handle (req : Request) (users : List User) : Response × List User :=
  match req with
  | Request.list => listUsers users
  | Request.get id => getUser id users
  | Request.create bound => createUser bound users
  | Request.update id bound => updateUser id bound users
  | Request.delete id => deleteUser id users

/-- A response is an error response when its status is 400 or above. -/
def isErrorStatus (r : Response) : Prop := 400 ≤ r.status

instance (r : Response) : Decidable (isErrorStatus r) := by
  unfold isErrorStatus; infer_instance

/-! ## The scan -/

/-- When no record has the id the loop runs to the end. -/
theorem scanFrom_none (id : String) (users : List User) (i : Nat)
    (h : ∀ u ∈ users, u.ID ≠ id) : scanFrom id users i = none := by
  induction users generalizing i with
  | nil => rfl
  | cons u rest ih =>
    have hu : u.ID ≠ id := h u (List.mem_cons_self _ _)
    simp only [scanFrom, if_neg hu]
    exact ih (i + 1) (fun v hv => h v (List.mem_cons_of_mem _ hv))

/-- The loop fires at the first record carrying the id, whatever follows it. -/
theorem scanFrom_split (id : String) (pre : List User) (u : User) (post : List User)
    (i : Nat) (hpre : ∀ v ∈ pre, v.ID ≠ id) (hu : u.ID = id) :
    scanFrom id (pre ++ u :: post) i = some (i + pre.length, u) := by
  induction pre generalizing i with
  | nil => simp [scanFrom, hu]
  | cons v rest ih =>
    have hv : v.ID ≠ id := hpre v (List.mem_cons_self _ _)
    have hrec := ih (i + 1) (fun w hw => hpre w (List.mem_cons_of_mem _ hw))
    have hidx : i + 1 + rest.length = i + (rest.length + 1) := by omega
    show scanFrom id (v :: (rest ++ u :: post)) i = some (i + (rest.length + 1), u)
    rw [scanFrom, if_neg hv, hrec, hidx]

/-- A collection holding the id splits at the first record carrying it. -/
theorem exists_first_match (id : String) (users : List User)
    (h : ∃ u ∈ users, u.ID = id) :
    ∃ pre u post, users = pre ++ u :: post ∧ (∀ v ∈ pre, v.ID ≠ id) ∧ u.ID = id := by
  induction users with
  | nil => obtain ⟨u, hu, _⟩ := h; cases hu
  | cons w rest ih =>
    by_cases hw : w.ID = id
    · exact ⟨[], w, rest, rfl, by simp, hw⟩
    · obtain ⟨u, hu, hid⟩ := h
      have hrest : ∃ u ∈ rest, u.ID = id := by
        rcases List.mem_cons.mp hu with rfl | hmem
        · exact absurd hid hw
        · exact ⟨u, hmem, hid⟩
      obtain ⟨pre, x, post, hsplit, hpre, hx⟩ := ih hrest
      refine ⟨w :: pre, x, post, by simp [hsplit], ?_, hx⟩
      intro v hv
      rcases List.mem_cons.mp hv with rfl | hmem
      · exact hw
      · exact hpre v hmem

/-- Writing slot `pre.length` of `pre ++ u :: post`. -/
theorem set_split (pre : List User) (u b : User) (post : List User) :
    (pre ++ u :: post).set pre.length b = pre ++ b :: post := by
  induction pre with
  | nil => rfl
  | cons v rest ih => simp [ih]

/-- Cutting slot `pre.length` out of `pre ++ u :: post`. -/
theorem cut_split (pre : List User) (u : User) (post : List User) :
    (pre ++ u :: post).take pre.length ++ (pre ++ u :: post).drop (pre.length + 1)
      = pre ++ post := by
  induction pre with
  | nil => simp
  | cons v rest ih => simp

/-! ## The handlers on a split collection -/

theorem getUser_split (id : String) (pre : List User) (u : User) (post : List User)
    (hpre : ∀ v ∈ pre, v.ID ≠ id) (hu : u.ID = id) :
    getUser id (pre ++ u :: post) = (⟨200, Body.user u⟩, pre ++ u :: post) := by
  simp [getUser, scanFrom_split id pre u post 0 hpre hu, StatusOK]

theorem getUser_absent (id : String) (users : List User) (h : ∀ u ∈ users, u.ID ≠ id) :
    getUser id users = (⟨404, Body.message "User not found"⟩, users) := by
  simp [getUser, scanFrom_none id users 0 h, StatusNotFound]

theorem updateUser_split (id : String) (b : User) (pre : List User) (u : User)
    (post : List User) (hpre : ∀ v ∈ pre, v.ID ≠ id) (hu : u.ID = id) :
    updateUser id (Except.ok b) (pre ++ u :: post)
      = (⟨200, Body.user b⟩, pre ++ b :: post) := by
  simp [updateUser, scanFrom_split id pre u post 0 hpre hu, StatusOK, set_split]

theorem updateUser_absent (id : String) (b : User) (users : List User)
    (h : ∀ u ∈ users, u.ID ≠ id) :
    updateUser id (Except.ok b) users = (⟨404, Body.message "User not found"⟩, users) := by
  simp [updateUser, scanFrom_none id users 0 h, StatusNotFound]

theorem deleteUser_split (id : String) (pre : List User) (u : User) (post : List User)
    (hpre : ∀ v ∈ pre, v.ID ≠ id) (hu : u.ID = id) :
    deleteUser id (pre ++ u :: post) = (⟨200, Body.message "User deleted"⟩, pre ++ post) := by
  simp only [deleteUser, scanFrom_split id pre u post 0 hpre hu, StatusOK, Nat.zero_add,
    cut_split]

theorem deleteUser_absent (id : String) (users : List User) (h : ∀ u ∈ users, u.ID ≠ id) :
    deleteUser id users = (⟨404, Body.message "User not found"⟩, users) := by
  simp [deleteUser, scanFrom_none id users 0 h, StatusNotFound]

/-! ## Read operations -/

/-- C8: for every collection, List answers 200 with exactly the records of the
collection in collection order and leaves the collection unchanged, so a second
List right after the first gives the identical result. -/
theorem list_returns_collection (users : List User) :
    listUsers users = (⟨200, Body.users users⟩, users)
      ∧ (listUsers users).2 = users
      ∧ listUsers (listUsers users).2 = listUsers users := by
  refine ⟨rfl, rfl, rfl⟩

/-- C1: when some record has the path id, Get by ID answers 200 with the first
record, in collection order, whose id equals the path id; when no record has it,
Get by ID answers 404 with the message "User not found".  The collection is
unchanged in both cases. -/
theorem get_by_id_first_match (users : List User) (id : String) :
    ((∃ u ∈ users, u.ID = id) →
        ∃ pre u post, users = pre ++ u :: post ∧ (∀ v ∈ pre, v.ID ≠ id) ∧ u.ID = id
          ∧ getUser id users = (⟨200, Body.user u⟩, users))
      ∧ ((∀ u ∈ users, u.ID ≠ id) →
          getUser id users = (⟨404, Body.message "User not found"⟩, users))
      ∧ (getUser id users).2 = users := by
  refine ⟨?_, getUser_absent id users, ?_⟩
  · intro h
    obtain ⟨pre, u, post, hsplit, hpre, hu⟩ := exists_first_match id users h
    refine ⟨pre, u, post, hsplit, hpre, hu, ?_⟩
    rw [hsplit]
    exact getUser_split id pre u post hpre hu
  · unfold getUser
    split <;> rfl

/-- The seed collection holds id "2" after the record with id "1", and holds no id "7". -/
theorem get_by_id_first_match_witness :
    getUser "2" seedUsers
        = (⟨200, Body.user ⟨"2", "Jane Doe", "jane@example.com"⟩⟩, seedUsers)
      ∧ getUser "7" seedUsers = (⟨404, Body.message "User not found"⟩, seedUsers) := by
  have h := get_by_id_first_match seedUsers "7"
  exact ⟨by decide, h.2.1 (by decide)⟩

/-! ## Write operations -/

/-- C4: for every collection and every decoded body, Create answers 201 with the
decoded body, and the new collection is the old one followed by that body as its
last element, one record longer; nothing is checked about the id, so this holds
whether or not the id is already in the collection. -/
theorem create_appends (users : List User) (newUser : User) :
    createUser (Except.ok newUser) users = (⟨201, Body.user newUser⟩, users ++ [newUser])
      ∧ (createUser (Except.ok newUser) users).2.length = users.length + 1
      ∧ (createUser (Except.ok newUser) users).2.getLast? = some newUser
      ∧ (createUser (Except.ok newUser) users).2.take users.length = users := by
  refine ⟨rfl, ?_, ?_, ?_⟩
  · simp [createUser]
  · simp [createUser]
  · simp [createUser]

/-- C2: when some record has the path id, Delete by ID answers 200 with the
message "User deleted", and the new collection is the old one with exactly the
first record carrying the id removed: the records before it and after it are
kept in order, and the length drops by exactly one. -/
theorem delete_removes_first_match (users : List User) (id : String)
    (h : ∃ u ∈ users, u.ID = id) :
    ∃ pre u post, users = pre ++ u :: post ∧ (∀ v ∈ pre, v.ID ≠ id) ∧ u.ID = id
      ∧ deleteUser id users = (⟨200, Body.message "User deleted"⟩, pre ++ post)
      ∧ (deleteUser id users).2.length + 1 = users.length := by
  obtain ⟨pre, u, post, hsplit, hpre, hu⟩ := exists_first_match id users h
  have hdel := deleteUser_split id pre u post hpre hu
  refine ⟨pre, u, post, hsplit, hpre, hu, ?_, ?_⟩
  · rw [hsplit]; exact hdel
  · rw [hsplit, hdel]
    simp only [List.length_append, List.length_cons]
    omega

/-- Deleting id "1" from the seed collection. -/
theorem delete_removes_first_match_witness :
    (∃ u ∈ seedUsers, u.ID = "1")
      ∧ ∃ pre u post, seedUsers = pre ++ u :: post ∧ (∀ v ∈ pre, v.ID ≠ "1") ∧ u.ID = "1"
          ∧ deleteUser "1" seedUsers = (⟨200, Body.message "User deleted"⟩, pre ++ post)
          ∧ (deleteUser "1" seedUsers).2.length + 1 = seedUsers.length :=
  have hmem : ∃ u ∈ seedUsers, u.ID = "1" :=
    ⟨⟨"1", "John Doe", "john@example.com"⟩, by decide, rfl⟩
  ⟨hmem, delete_removes_first_match seedUsers "1" hmem⟩

/-- C3: when some record has the path id and the body decodes, Update by ID
answers 200 with the decoded body, and the new collection is the old one with the
slot of the first record carrying the path id now holding the whole decoded body,
its id field included, whether or not that id equals the path id; every other slot
and the length are unchanged. -/
theorem update_replaces_first_match (users : List User) (id : String) (updatedUser : User)
    (h : ∃ u ∈ users, u.ID = id) :
    ∃ pre u post, users = pre ++ u :: post ∧ (∀ v ∈ pre, v.ID ≠ id) ∧ u.ID = id
      ∧ updateUser id (Except.ok updatedUser) users
          = (⟨200, Body.user updatedUser⟩, pre ++ updatedUser :: post)
      ∧ (updateUser id (Except.ok updatedUser) users).2[pre.length]? = some updatedUser
      ∧ (∀ j, j ≠ pre.length →
          (updateUser id (Except.ok updatedUser) users).2[j]? = users[j]?)
      ∧ (updateUser id (Except.ok updatedUser) users).2.length = users.length := by
  obtain ⟨pre, u, post, hsplit, hpre, hu⟩ := exists_first_match id users h
  have hupd := updateUser_split id updatedUser pre u post hpre hu
  have hset := set_split pre u updatedUser post
  refine ⟨pre, u, post, hsplit, hpre, hu, ?_, ?_, ?_, ?_⟩
  · rw [hsplit]; exact hupd
  · rw [hsplit, hupd]
    show (pre ++ updatedUser :: post)[pre.length]? = some updatedUser
    rw [List.getElem?_append_right (Nat.le_refl _)]
    simp
  · intro j hj
    rw [hsplit, hupd, ← hset]
    exact List.getElem?_set_ne (Ne.symm hj)
  · rw [hsplit, hupd]; simp

/-- Updating id "2" of the seed collection with a body whose id is "9". -/
theorem update_replaces_first_match_witness :
    (∃ u ∈ seedUsers, u.ID = "2")
      ∧ ∃ pre u post, seedUsers = pre ++ u :: post ∧ (∀ v ∈ pre, v.ID ≠ "2") ∧ u.ID = "2"
          ∧ updateUser "2" (Except.ok ⟨"9", "Ann", "a@x.com"⟩) seedUsers
              = (⟨200, Body.user ⟨"9", "Ann", "a@x.com"⟩⟩, pre ++ ⟨"9", "Ann", "a@x.com"⟩ :: post)
          ∧ (updateUser "2" (Except.ok ⟨"9", "Ann", "a@x.com"⟩) seedUsers).2[pre.length]?
              = some ⟨"9", "Ann", "a@x.com"⟩
          ∧ (∀ j, j ≠ pre.length →
              (updateUser "2" (Except.ok ⟨"9", "Ann", "a@x.com"⟩) seedUsers).2[j]?
                = seedUsers[j]?)
          ∧ (updateUser "2" (Except.ok ⟨"9", "Ann", "a@x.com"⟩) seedUsers).2.length
              = seedUsers.length :=
  have hmem : ∃ u ∈ seedUsers, u.ID = "2" :=
    ⟨⟨"2", "Jane Doe", "jane@example.com"⟩, by decide, rfl⟩
  ⟨hmem, update_replaces_first_match seedUsers "2" ⟨"9", "Ann", "a@x.com"⟩ hmem⟩

/-! ## Error responses -/

/-- C5: every request answered with an error status leaves the collection as it
was.  Update and Delete with a path id that no record has answer 404 with the
message "User not found"; Create and Update whose body fails to decode answer 400
with the text of the decode error; the collection is unchanged in each case. -/
theorem error_response_keeps_collection (users : List User) (req : Request) (id : String)
    (body : User) (err : String) :
    (isErrorStatus (handle req users).1 → (handle req users).2 = users)
      ∧ ((∀ u ∈ users, u.ID ≠ id) →
          updateUser id (Except.ok body) users
              = (⟨404, Body.message "User not found"⟩, users)
            ∧ deleteUser id users = (⟨404, Body.message "User not found"⟩, users))
      ∧ createUser (Except.error err) users = (⟨400, Body.error err⟩, users)
      ∧ updateUser id (Except.error err) users = (⟨400, Body.error err⟩, users) := by
  refine ⟨?_, ?_, rfl, rfl⟩
  · intro herr
    cases req with
    | list => rfl
    | get gid =>
      simp only [handle, getUser]
      split <;> rfl
    | create bound =>
      cases bound with
      | error e => rfl
      | ok b =>
        simp [handle, createUser, isErrorStatus, StatusCreated] at herr
    | update uid bound =>
      cases bound with
      | error e => rfl
      | ok b =>
        simp only [handle, updateUser] at herr ⊢
        split at herr
        · simp [isErrorStatus, StatusOK] at herr
        · rename_i hnone
          simp [hnone]
    | delete did =>
      simp only [handle, deleteUser] at herr ⊢
      split at herr
      · simp [isErrorStatus, StatusOK] at herr
      · rename_i hnone
        simp [hnone]
  · intro habs
    exact ⟨updateUser_absent id body users habs, deleteUser_absent id users habs⟩

/-- A Delete of the unknown id "7" on the seed collection is answered 404 and
changes nothing. -/
theorem error_response_keeps_collection_witness :
    isErrorStatus (handle (Request.delete "7") seedUsers).1
      ∧ (handle (Request.delete "7") seedUsers).2 = seedUsers :=
  have herr : isErrorStatus (handle (Request.delete "7") seedUsers).1 := by decide
  ⟨herr,
    (error_response_keeps_collection seedUsers (Request.delete "7") "7"
      ⟨"7", "", ""⟩ "").1 herr⟩

/-! ## Sequences of requests -/

/-- C7: when some record has the path id and the decoded body carries that same
id, a Get by ID of the id right after the Update answers 200 with exactly the
body, and the Update leaves the length of the collection unchanged. -/
theorem get_after_update (users : List User) (id : String) (updatedUser : User)
    (h : ∃ u ∈ users, u.ID = id) (hid : updatedUser.ID = id) :
    getUser id (updateUser id (Except.ok updatedUser) users).2
        = (⟨200, Body.user updatedUser⟩, (updateUser id (Except.ok updatedUser) users).2)
      ∧ (updateUser id (Except.ok updatedUser) users).2.length = users.length := by
  obtain ⟨pre, u, post, hsplit, hpre, hu⟩ := exists_first_match id users h
  have hupd := updateUser_split id updatedUser pre u post hpre hu
  rw [hsplit, hupd]
  exact ⟨getUser_split id pre updatedUser post hpre hid, by simp⟩

/-- Updating id "1" of the seed collection with a body of id "1", then reading it. -/
theorem get_after_update_witness :
    (∃ u ∈ seedUsers, u.ID = "1")
      ∧ getUser "1" (updateUser "1" (Except.ok ⟨"1", "Johnny", "j2@x.com"⟩) seedUsers).2
          = (⟨200, Body.user ⟨"1", "Johnny", "j2@x.com"⟩⟩,
              (updateUser "1" (Except.ok ⟨"1", "Johnny", "j2@x.com"⟩) seedUsers).2)
      ∧ (updateUser "1" (Except.ok ⟨"1", "Johnny", "j2@x.com"⟩) seedUsers).2.length
          = seedUsers.length :=
  have hmem : ∃ u ∈ seedUsers, u.ID = "1" :=
    ⟨⟨"1", "John Doe", "john@example.com"⟩, by decide, rfl⟩
  ⟨hmem, get_after_update seedUsers "1" ⟨"1", "Johnny", "j2@x.com"⟩ hmem rfl⟩

/-- C9, as stated, fails: the seed collection already holds the record
("1", "John Doe", "john@example.com"); after a Create with an equal body, Get by ID
of "1" answers 200 with that body although a record of the collection before the
Create had its id, so "returns B exactly when no record had the id of B" is false. -/
theorem get_after_create_equal_record :
    (∃ u ∈ seedUsers, u.ID = "1")
      ∧ getUser "1"
          (createUser (Except.ok ⟨"1", "John Doe", "john@example.com"⟩) seedUsers).2
        = (⟨200, Body.user ⟨"1", "John Doe", "john@example.com"⟩⟩,
            seedUsers ++ [⟨"1", "John Doe", "john@example.com"⟩])
      ∧ ¬ (getUser "1"
            (createUser (Except.ok ⟨"1", "John Doe", "john@example.com"⟩) seedUsers).2
          = (⟨200, Body.user ⟨"1", "John Doe", "john@example.com"⟩⟩,
              seedUsers ++ [⟨"1", "John Doe", "john@example.com"⟩])
          ↔ ∀ u ∈ seedUsers, u.ID ≠ "1") :=
  ⟨⟨⟨"1", "John Doe", "john@example.com"⟩, by decide, rfl⟩, by decide, by decide⟩

/-- C9, amended: after a Create with body B, a Get by ID of the id of B answers
200; it answers with the first record of the collection before the Create that has
the id of B when there is one, and with B when there is none.  The answer is B
exactly when no record of the collection before the Create had the id of B or the
first one that had it equals B in every field. -/
theorem get_after_create (users : List User) (newUser : User) :
    ((∃ u ∈ users, u.ID = newUser.ID) →
        ∃ pre u post, users = pre ++ u :: post ∧ (∀ v ∈ pre, v.ID ≠ newUser.ID)
          ∧ u.ID = newUser.ID
          ∧ getUser newUser.ID (createUser (Except.ok newUser) users).2
              = (⟨200, Body.user u⟩, users ++ [newUser]))
      ∧ ((∀ u ∈ users, u.ID ≠ newUser.ID) →
          getUser newUser.ID (createUser (Except.ok newUser) users).2
            = (⟨200, Body.user newUser⟩, users ++ [newUser]))
      ∧ (getUser newUser.ID (createUser (Except.ok newUser) users).2
            = (⟨200, Body.user newUser⟩, users ++ [newUser])
          ↔ ((∀ u ∈ users, u.ID ≠ newUser.ID)
              ∨ ∃ pre post, users = pre ++ newUser :: post
                  ∧ ∀ v ∈ pre, v.ID ≠ newUser.ID)) := by
  have hstate : (createUser (Except.ok newUser) users).2 = users ++ [newUser] := rfl
  have hold : ∀ pre u post, users = pre ++ u :: post → (∀ v ∈ pre, v.ID ≠ newUser.ID) →
      u.ID = newUser.ID →
      getUser newUser.ID (users ++ [newUser]) = (⟨200, Body.user u⟩, users ++ [newUser]) := by
    intro pre u post hsplit hpre hu
    have hget := getUser_split newUser.ID pre u (post ++ [newUser]) hpre hu
    rw [hsplit]
    simpa using hget
  have hnew : (∀ u ∈ users, u.ID ≠ newUser.ID) →
      getUser newUser.ID (users ++ [newUser])
        = (⟨200, Body.user newUser⟩, users ++ [newUser]) :=
    fun habs => getUser_split newUser.ID users newUser [] habs rfl
  rw [hstate]
  refine ⟨?_, hnew, ?_, ?_⟩
  · intro h
    obtain ⟨pre, u, post, hsplit, hpre, hu⟩ := exists_first_match newUser.ID users h
    exact ⟨pre, u, post, hsplit, hpre, hu, hold pre u post hsplit hpre hu⟩
  · intro hget
    by_cases h : ∃ u ∈ users, u.ID = newUser.ID
    · obtain ⟨pre, u, post, hsplit, hpre, hu⟩ := exists_first_match newUser.ID users h
      have hfound := hold pre u post hsplit hpre hu
      rw [hget] at hfound
      have hsame : newUser = u := by
        simpa using congrArg (fun r => r.1.body) hfound
      exact Or.inr ⟨pre, post, by rw [hsame]; exact hsplit, hpre⟩
    · push_neg at h
      exact Or.inl h
  · intro hcase
    rcases hcase with habs | ⟨pre, post, hsplit, hpre⟩
    · exact hnew habs
    · exact hold pre newUser post hsplit hpre rfl

/-- Creating id "3" on the seed collection, where no record has it: Get answers
with the new record; creating a second record with id "1": Get answers with the
older record. -/
theorem get_after_create_witness :
    (∀ u ∈ seedUsers, u.ID ≠ "3")
      ∧ getUser "3" (createUser (Except.ok ⟨"3", "Ann", "a@x.com"⟩) seedUsers).2
        = (⟨200, Body.user ⟨"3", "Ann", "a@x.com"⟩⟩, seedUsers ++ [⟨"3", "Ann", "a@x.com"⟩])
      ∧ ¬ (getUser "1" (createUser (Except.ok ⟨"1", "Ann", "a@x.com"⟩) seedUsers).2
        = (⟨200, Body.user ⟨"1", "Ann", "a@x.com"⟩⟩, seedUsers ++ [⟨"1", "Ann", "a@x.com"⟩])) :=
  have habs : ∀ u ∈ seedUsers, u.ID ≠ "3" := by decide
  ⟨habs, (get_after_create seedUsers ⟨"3", "Ann", "a@x.com"⟩).2.1 habs, by decide⟩

/-- C6, as stated, fails: Create is not refused a second record with id "1", and
after Delete by ID of "1" removes the first of the two, Get by ID of "1" answers
200 with the one that is left. -/
theorem get_after_delete_duplicate :
    (∃ u ∈ (createUser (Except.ok ⟨"1", "Ann", "a@x.com"⟩) seedUsers).2, u.ID = "1")
      ∧ getUser "1"
          (deleteUser "1" (createUser (Except.ok ⟨"1", "Ann", "a@x.com"⟩) seedUsers).2).2
        = (⟨200, Body.user ⟨"1", "Ann", "a@x.com"⟩⟩,
            [⟨"2", "Jane Doe", "jane@example.com"⟩, ⟨"1", "Ann", "a@x.com"⟩])
      ∧ (getUser "1"
          (deleteUser "1" (createUser (Except.ok ⟨"1", "Ann", "a@x.com"⟩) seedUsers).2).2).1.status
        ≠ 404 :=
  ⟨⟨⟨"1", "John Doe", "john@example.com"⟩, by decide, rfl⟩, by decide, by decide⟩

/-- C6, amended: when some record has the id, a Get by ID of the id right after a
Delete by ID of it answers 404 with the message "User not found" exactly when one
record of the collection, and no more, had the id. -/
theorem get_after_delete (users : List User) (id : String)
    (h : ∃ u ∈ users, u.ID = id) :
    getUser id (deleteUser id users).2
        = (⟨404, Body.message "User not found"⟩, (deleteUser id users).2)
      ↔ users.countP (fun u => decide (u.ID = id)) = 1 := by
  obtain ⟨pre, u, post, hsplit, hpre, hu⟩ := exists_first_match id users h
  have hdel := deleteUser_split id pre u post hpre hu
  have hpre0 : pre.countP (fun u => decide (u.ID = id)) = 0 := by
    rw [List.countP_eq_zero]
    intro v hv
    simpa using hpre v hv
  have hcount : users.countP (fun u => decide (u.ID = id))
      = 1 + post.countP (fun u => decide (u.ID = id)) := by
    rw [hsplit, List.countP_append, hpre0, List.countP_cons_of_pos _ _ (by simpa using hu)]
    omega
  rw [hsplit, hdel, ← hsplit, hcount]
  constructor
  · intro hget
    have hpost : ∀ v ∈ post, v.ID ≠ id := by
      intro v hv hvid
      obtain ⟨pre2, w, post2, hsplit2, hpre2, hw⟩ :=
        exists_first_match id (pre ++ post) ⟨v, List.mem_append_right _ hv, hvid⟩
      have hfound := getUser_split id pre2 w post2 hpre2 hw
      rw [← hsplit2, hget] at hfound
      simp at hfound
    have hpost0 : post.countP (fun u => decide (u.ID = id)) = 0 := by
      rw [List.countP_eq_zero]
      intro v hv
      simpa using hpost v hv
    omega
  · intro hone
    have hpost0 : post.countP (fun u => decide (u.ID = id)) = 0 := by omega
    rw [List.countP_eq_zero] at hpost0
    apply getUser_absent
    intro v hv
    rcases List.mem_append.mp hv with hin | hin
    · exact hpre v hin
    · simpa using hpost0 v hin

/-- Deleting id "2" from the seed collection, where one record has it, then
reading it. -/
theorem get_after_delete_witness :
    (∃ u ∈ seedUsers, u.ID = "2")
      ∧ getUser "2" (deleteUser "2" seedUsers).2
          = (⟨404, Body.message "User not found"⟩, (deleteUser "2" seedUsers).2) :=
  have hmem : ∃ u ∈ seedUsers, u.ID = "2" :=
    ⟨⟨"2", "Jane Doe", "jane@example.com"⟩, by decide, rfl⟩
  ⟨hmem, (get_after_delete seedUsers "2" hmem).mpr (by decide)⟩

/-! ## Distinct ids -/

/-- C10: on a collection in which no two records share an id, the ids are still
pairwise distinct after every Delete by ID, after every Update by ID whose body,
when it decodes, carries the path id, and after every Create whose body, when it
decodes, carries an id that no record of the collection has. -/
theorem distinct_ids_preserved (users : List User) (id : String)
    (bound : Except String User) (hnodup : (users.map User.ID).Nodup) :
    ((deleteUser id users).2.map User.ID).Nodup
      ∧ ((∀ b, bound = Except.ok b → b.ID = id) →
          ((updateUser id bound users).2.map User.ID).Nodup)
      ∧ ((∀ b, bound = Except.ok b → ∀ u ∈ users, u.ID ≠ b.ID) →
          ((createUser bound users).2.map User.ID).Nodup) := by
  refine ⟨?_, ?_, ?_⟩
  · by_cases h : ∃ u ∈ users, u.ID = id
    · obtain ⟨pre, u, post, hsplit, hpre, hu⟩ := exists_first_match id users h
      rw [hsplit, deleteUser_split id pre u post hpre hu]
      rw [hsplit] at hnodup
      have hsub : List.Sublist (pre ++ post) (pre ++ u :: post) :=
        List.Sublist.append_left (List.sublist_cons_self u post) pre
      exact hnodup.sublist (hsub.map User.ID)
    · push_neg at h
      rw [deleteUser_absent id users h]
      exact hnodup
  · intro hbody
    cases bound with
    | error e => exact hnodup
    | ok b =>
      have hb : b.ID = id := hbody b rfl
      by_cases h : ∃ u ∈ users, u.ID = id
      · obtain ⟨pre, u, post, hsplit, hpre, hu⟩ := exists_first_match id users h
        rw [hsplit, updateUser_split id b pre u post hpre hu]
        rw [hsplit] at hnodup
        simpa [hb, hu] using hnodup
      · push_neg at h
        rw [updateUser_absent id b users h]
        exact hnodup
  · intro hfresh
    cases bound with
    | error e => exact hnodup
    | ok b =>
      have hb := hfresh b rfl
      show ((users ++ [b]).map User.ID).Nodup
      rw [List.map_append, List.nodup_append]
      refine ⟨hnodup, by simp, ?_⟩
      intro x hx hx2
      simp only [List.map_cons, List.map_nil, List.mem_singleton] at hx2
      obtain ⟨w, hw, hwid⟩ := List.mem_map.mp hx
      exact hb w hw (hwid.trans hx2)

/-- The ids of the seed collection are distinct, and stay so after deleting id "1". -/
theorem distinct_ids_preserved_witness :
    (seedUsers.map User.ID).Nodup ∧ ((deleteUser "1" seedUsers).2.map User.ID).Nodup :=
  have hseed : (seedUsers.map User.ID).Nodup := by decide
  ⟨hseed, (distinct_ids_preserved seedUsers "1" (Except.error "") hseed).1⟩

end UserService
